import Mathlib

/-
Verification of the framed-transport / registry / rate-limit / broadcast core
of the chat server (src/Python/server.py) and the hybrid peer
(src/P2P/Python/peer2peer.py).

Payloads are modelled as lists of byte values (the UTF-8 encoding of the
Python `str`); Python `float` timestamps are modelled as rationals; sockets
are modelled by numeric identifiers; the registry list guarded by
`clients_lock` is modelled as a plain list, each lock-protected section
becoming one pure function (the atomicity granted by the lock).
-/

set_option maxHeartbeats 1000000

namespace ChatServer

/-- server.py line 12. -/
def BUFFER_SIZE : Nat := 4096

/-- server.py line 13. -/
def MAX_CLIENTS : Nat := 100

/-- server.py line 17 (seconds). -/
def HEARTBEAT_TIMEOUT : ℚ := 100

/-- server.py line 18. -/
def RATE_LIMIT_MESSAGES : Nat := 10

/-- server.py line 19 (seconds). -/
def RATE_LIMIT_WINDOW : ℚ := 1

/-- Models struct.pack of one 4-byte big-endian unsigned int
(server.py line 75). -/
def packBE (n : Nat) : List Nat :=
  [n / 16777216 % 256, n / 65536 % 256, n / 256 % 256, n % 256]

/-- Models struct.unpack of 4 big-endian bytes (server.py line 108). -/
def unpackBE : List Nat → Nat
  | [b0, b1, b2, b3] => ((b0 * 256 + b1) * 256 + b2) * 256 + b3
  | _ => 0

/-- send_message (server.py lines 59-83): write the 4-byte big-endian length
prefix, then the payload bytes. -/
def sendMessage (payload : List Nat) : List Nat :=
  packBE payload.length ++ payload

/-- One `sock.recv(req)` call on a TCP stream.  The pending bytes are
`stream`; `sched` is the adversarial fragmentation schedule: each entry
bounds how many bytes this delivery yields (at least 1, at most `req`).
An exhausted schedule delivers everything requested.  An empty stream
yields the empty chunk (EOF). -/
def recvOnce (req : Nat) (stream sched : List Nat) :
    List Nat × List Nat × List Nat :=
  match sched with
  | [] => (stream.take req, stream.drop req, [])
  | h :: t => (stream.take (min req (max 1 h)), stream.drop (min req (max 1 h)), t)

/-- The short-read-tolerant accumulation loop of receive_message
(server.py lines 101-106 and 116-121): keep calling `recv` for the
missing bytes (capped at `cap`, the code requests `min remaining cap`)
until `need` bytes have arrived; an empty chunk (EOF) aborts with `none`.
`fuel` bounds the iteration count; any `fuel ≥ need` is exact because every
successful chunk is nonempty. -/
def recvLoop : Nat → Nat → Nat → List Nat → List Nat → List Nat →
    Option (List Nat × List Nat × List Nat)
  | _, 0, _, acc, stream, sched => some (acc, stream, sched)
  | 0, _ + 1, _, _, _, _ => none
  | fuel + 1, need + 1, cap, acc, stream, sched =>
      let r := recvOnce (min (need + 1) cap) stream sched
      if r.1.isEmpty then none
      else recvLoop fuel (need + 1 - r.1.length) cap (acc ++ r.1) r.2.1 r.2.2

/-- receive_message (server.py lines 86-130): read exactly 4 length bytes,
reject a decoded length above `BUFFER_SIZE * 10` (40960), then read exactly
that many body bytes, each via the tolerant loop. -/
def receiveMessage (stream sched : List Nat) : Option (List Nat) :=
  match recvLoop 4 4 4 [] stream sched with
  | none => none
  | some (lengthData, s1, sc1) =>
      let messageLength := unpackBE lengthData
      if BUFFER_SIZE * 10 < messageLength then none
      else
        match recvLoop messageLength messageLength BUFFER_SIZE [] s1 sc1 with
        | none => none
        | some (body, _, _) => some body

lemma unpackBE_packBE (n : Nat) (h : n < 4294967296) : unpackBE (packBE n) = n := by
  simp only [packBE, unpackBE]
  omega

lemma packBE_length (n : Nat) : (packBE n).length = 4 := rfl

lemma recvOnce_chunk (req : Nat) (stream sched : List Nat) (hreq : 1 ≤ req) :
    ∃ k sched', 1 ≤ k ∧ k ≤ req ∧
      recvOnce req stream sched = (stream.take k, stream.drop k, sched') := by
  cases sched with
  | nil => exact ⟨req, [], hreq, le_refl _, rfl⟩
  | cons h t =>
      refine ⟨min req (max 1 h), t, ?_, Nat.min_le_left _ _, rfl⟩
      exact le_min hreq (le_max_left _ _)

lemma recvLoop_spec : ∀ (fuel need cap : Nat) (acc stream sched : List Nat),
    need ≤ fuel → need ≤ stream.length → 1 ≤ cap →
    ∃ sched', recvLoop fuel need cap acc stream sched =
      some (acc ++ stream.take need, stream.drop need, sched') := by
  intro fuel
  induction fuel with
  | zero =>
      intro need cap acc stream sched h1 _ _
      have hn : need = 0 := Nat.le_zero.mp h1
      subst hn
      exact ⟨sched, by simp [recvLoop]⟩
  | succ fuel ih =>
      intro need cap acc stream sched h1 h2 h3
      cases need with
      | zero => exact ⟨sched, by simp [recvLoop]⟩
      | succ n =>
          have hreq : 1 ≤ min (n + 1) cap := le_min (Nat.succ_le_succ (Nat.zero_le n)) h3
          obtain ⟨k, sched', hk1, hkreq, hro⟩ := recvOnce_chunk (min (n + 1) cap) stream sched hreq
          have hkn : k ≤ n + 1 := le_trans hkreq (Nat.min_le_left _ _)
          have hkl : k ≤ stream.length := le_trans hkn h2
          have hlen : (stream.take k).length = k := by
            rw [List.length_take]; exact Nat.min_eq_left hkl
          have hne : (stream.take k).isEmpty = false := by
            have : 0 < (stream.take k).length := by omega
            cases hT : stream.take k with
            | nil => rw [hT] at this; simp at this
            | cons a l => simp
          obtain ⟨sched'', hrec⟩ := ih (n + 1 - k) cap (acc ++ stream.take k)
            (stream.drop k) sched' (by omega)
            (by rw [List.length_drop]; omega) h3
          refine ⟨sched'', ?_⟩
          rw [recvLoop, hro]
          simp only [hne, Bool.false_eq_true, if_false, hlen]
          rw [hrec]
          have htake : stream.take (n + 1) = stream.take k ++ (stream.drop k).take (n + 1 - k) := by
            have := List.take_add stream k (n + 1 - k)
            rwa [Nat.add_sub_cancel' hkn] at this
          have hdrop : (stream.drop k).drop (n + 1 - k) = stream.drop (n + 1) := by
            rw [List.drop_drop]
            congr 1
            omega
          rw [htake, hdrop, List.append_assoc]

/-- The framed round trip on the transport: receiving the exact bytes written
by send_message, under any fragmentation, yields the payload back. -/
lemma receiveMessage_frame (payload : List Nat) (sched : List Nat)
    (h : payload.length ≤ 40960) :
    receiveMessage (sendMessage payload) sched = some payload := by
  have hstream : (sendMessage payload).length = 4 + payload.length := by
    simp [sendMessage, packBE_length]
  obtain ⟨sc1, h4⟩ := recvLoop_spec 4 4 4 [] (sendMessage payload) sched
    (le_refl 4) (by omega) (by omega)
  have htake4 : (sendMessage payload).take 4 = packBE payload.length := by
    have : (packBE payload.length ++ payload).take (packBE payload.length).length
        = packBE payload.length := List.take_left _ _
    rwa [packBE_length] at this
  have hdrop4 : (sendMessage payload).drop 4 = payload := by
    have : (packBE payload.length ++ payload).drop (packBE payload.length).length
        = payload := List.drop_left _ _
    rwa [packBE_length] at this
  rw [receiveMessage, h4, htake4, hdrop4]
  have hub : unpackBE (packBE payload.length) = payload.length :=
    unpackBE_packBE _ (by omega)
  simp only [hub, List.nil_append]
  have hno : ¬ BUFFER_SIZE * 10 < payload.length := by
    simp only [BUFFER_SIZE]; omega
  rw [if_neg hno]
  obtain ⟨sc2, hbody⟩ := recvLoop_spec payload.length payload.length BUFFER_SIZE []
    payload sc1 (le_refl _) (le_refl _) (by simp [BUFFER_SIZE])
  rw [hbody]
  simp

/-- C1: for every payload of at most 40960 bytes (the UTF-8 encoding of the
string S), send_message writes a 4-byte big-endian length prefix followed by
the payload bytes, and receive_message applied to exactly those bytes, under
any fragmentation schedule, returns the payload (hence, after UTF-8
decoding, the string S). -/
theorem C1_send_receive_roundtrip (payload sched : List Nat)
    (h : payload.length ≤ 40960) :
    sendMessage payload = packBE payload.length ++ payload
    ∧ (packBE payload.length).length = 4
    ∧ receiveMessage (sendMessage payload) sched = some payload :=
  ⟨rfl, packBE_length _, receiveMessage_frame payload sched h⟩

/-- Witness for C1 at the concrete two-byte payload "hi" delivered in
1-byte fragments. -/
theorem C1_send_receive_roundtrip_witness :
    [104, 105].length ≤ 40960
    ∧ receiveMessage (sendMessage [104, 105]) [1, 1, 1, 1, 1, 1] = some [104, 105] :=
  ⟨by decide, (C1_send_receive_roundtrip [104, 105] [1, 1, 1, 1, 1, 1] (by decide)).2.2⟩

/-! String helpers mirroring the Python string operations the handler uses,
written over `List Char` so they reduce in the kernel. -/

/-- The ASCII whitespace characters Python str.strip / str.split treat as
separators. -/
def isPySpace (c : Char) : Bool :=
  c == ' ' || c == '\t' || c == '\n' || c == '\r' || c == '\x0b' || c == '\x0c'

/-- Models `len(message.strip()) == 0` (server.py line 334). -/
def stripIsEmpty (s : String) : Bool := s.toList.all isPySpace

/-- Models `message.startswith("/")` (server.py lines 343 and 355). -/
def startsWithSlash (s : String) : Bool :=
  match s.toList with
  | [] => false
  | c :: _ => c == '/'

/-- Python str.split() with no argument: split on whitespace runs, dropping
empty pieces. -/
def wordsAux : List Char → List Char → List (List Char)
  | [], [] => []
  | [], acc => [acc.reverse]
  | c :: rest, acc =>
      if isPySpace c then
        match acc with
        | [] => wordsAux rest []
        | _ :: _ => acc.reverse :: wordsAux rest []
      else wordsAux rest (c :: acc)

def pyWords (s : String) : List String := (wordsAux s.toList []).map String.mk

/-- Models `message.split()[0] if message.split() else message`
(server.py line 356). -/
def firstToken (s : String) : String :=
  match pyWords s with
  | [] => s
  | w :: _ => w

/-- One step of Python str.split(" ", n): the piece before the first single
space, and the remainder after it when a space was found. -/
def takeUntilSpace : List Char → List Char × Option (List Char)
  | [] => ([], none)
  | c :: t =>
      if c == ' ' then ([], some t)
      else
        let r := takeUntilSpace t
        (c :: r.1, r.2)

/-- Python str.split(" ", n): split on single spaces, at most n splits
(used by /pm, server.py line 383). -/
def splitSpaceMax : Nat → List Char → List (List Char)
  | 0, cs => [cs]
  | n + 1, cs =>
      match takeUntilSpace cs with
      | (a, none) => [a]
      | (a, some rest) => a :: splitSpaceMax n rest

/-- Python str.lower restricted to ASCII (server.py lines 375 and 390). -/
def pyLower (s : String) : String := String.mk (s.toList.map Char.toLower)

/-- One entry of the `clients` list (server.py line 53): the stored 8-tuple
(socket, address, username, p2p_port, last_heartbeat, last_message_time,
message_count, color_code). -/
structure Client where
  sock : Nat
  addr : String × Nat
  username : String
  p2pPort : Nat
  lastHeartbeat : ℚ
  lastMessageTime : ℚ
  messageCount : Nat
  colorCode : String
deriving DecidableEq

/-- USER_COLORS (server.py lines 30-43), kept as the numeric codes the server
actually stores (line 308 strips the escape wrapper before storing). -/
def USER_COLORS : List String :=
  ["31", "32", "33", "34", "35", "36", "91", "92", "93", "94", "95", "96"]

/-- get_user_color (server.py lines 133-143): cyclic index into the palette. -/
def getUserColor (clientIndex : Nat) : String :=
  USER_COLORS.getD (clientIndex % USER_COLORS.length) ""

/-- The per-record window logic of check_rate_limit (server.py lines
160-171): reset after a full window, increment below the limit, else
reject leaving the record unchanged. -/
def checkRateLimitRec (c : Client) (now : ℚ) : Client × Bool :=
  if RATE_LIMIT_WINDOW ≤ now - c.lastMessageTime then
    ({ c with lastMessageTime := now, messageCount := 1 }, true)
  else if c.messageCount < RATE_LIMIT_MESSAGES then
    ({ c with messageCount := c.messageCount + 1 }, true)
  else (c, false)

/-- check_rate_limit (server.py lines 146-172): apply the window logic to
the record holding this socket; a socket with no record is admitted. -/
def checkRateLimit (sock : Nat) (now : ℚ) : List Client → List Client × Bool
  | [] => ([], true)
  | c :: rest =>
      if c.sock = sock then
        ((checkRateLimitRec c now).1 :: rest, (checkRateLimitRec c now).2)
      else
        (c :: (checkRateLimit sock now rest).1, (checkRateLimit sock now rest).2)

/-- update_heartbeat (server.py lines 175-187): stamp the first record
holding this socket with the current time. -/
def updateHeartbeat (sock : Nat) (now : ℚ) : List Client → List Client
  | [] => []
  | c :: rest =>
      if c.sock = sock then { c with lastHeartbeat := now } :: rest
      else c :: updateHeartbeat sock now rest

/-- The removal applied after a scan pass (server.py lines 216-218, 255-257
and 462-464): each marked record object is removed from the current list by
whole-record equality (Python `list.remove`, preceded by an `in` check
where the code has one; removing an absent record is a no-op either way). -/
def removeMarked (marked cur : List Client) : List Client :=
  marked.foldl (fun acc c => acc.erase c) cur

/-- The fan-out pass of broadcast_message (server.py lines 240-252): attempt
a send to every member except the excluded socket; `sendOk` tells which
sockets accept the write; failed members are collected for later removal.
Returns (success count, attempted deliveries, marked records). -/
def broadcastPass (sendOk : Nat → Bool) (message : String) (excl : Option Nat) :
    List Client → Nat × List (Nat × String) × List Client
  | [] => (0, [], [])
  | c :: rest =>
      let r := broadcastPass sendOk message excl rest
      if excl = some c.sock then r
      else if sendOk c.sock then (r.1 + 1, (c.sock, message) :: r.2.1, r.2.2)
      else (r.1, (c.sock, message) :: r.2.1, c :: r.2.2)

/-- broadcast_message (server.py lines 226-260): the fan-out pass followed by
removal of the marked records, all under one lock acquisition. -/
def broadcastMessage (sendOk : Nat → Bool) (message : String) (excl : Option Nat)
    (clients : List Client) : Nat × List Client :=
  let r := broadcastPass sendOk message excl clients
  (r.1, removeMarked r.2.2 clients)

/-- The scan pass of heartbeat_monitor (server.py lines 199-211): a record
silent for more than 2 × HEARTBEAT_TIMEOUT is marked for eviction; otherwise
a PING frame is attempted (send_message returns a Bool and never raises, so
the `except` branch that would mark a ping failure is unreachable).
Returns (marked records, attempted pings). -/
def heartbeatScan (now : ℚ) : List Client → List Client × List (Nat × String)
  | [] => ([], [])
  | c :: rest =>
      let r := heartbeatScan now rest
      if HEARTBEAT_TIMEOUT * 2 < now - c.lastHeartbeat then (c :: r.1, r.2)
      else (r.1, (c.sock, "PING") :: r.2)

/-- The eviction pass of heartbeat_monitor (server.py lines 214-223), run
after the lock was released and reacquired: remove each marked record
object from the then-current list. -/
def heartbeatEvict (marked cur : List Client) : List Client :=
  removeMarked marked cur

/-- Modelled from the spec: removals "applied once, after the pass, by key
comparison against the current Registry (not by comparing stale objects
from the snapshot)"; the Registry key is the remote address (spec
section 3).  Defined only to compare against the removal the code
performs. -/
def removeByKeySpec (marked cur : List Client) : List Client :=
  cur.filter (fun c => !(marked.any (fun m => m.addr == c.addr)))

inductive HandlerAction where
  | continueLoop
  | breakLoop
deriving DecidableEq

/-- Models `if not message: break` (server.py lines 329-331): Python treats both
None and the empty string as falsy. -/
def handlerBreaksOn : Option (List Nat) → Bool
  | none => true
  | some m => m.isEmpty

structure FinallyResult where
  registry : List Client
  closedSock : Nat
deriving DecidableEq

/-- The `finally` cleanup of handle_client (server.py lines 459-478): every
record holding this socket is removed, then the socket is closed. -/
def handlerFinally (sock : Nat) (clients : List Client) : FinallyResult :=
  ⟨removeMarked (clients.filter (fun c => c.sock == sock)) clients, sock⟩

structure InsertResult where
  registry : List Client
  replies : List (Nat × String)
  closedSock : Option Nat
  accepted : Bool
deriving DecidableEq

/-- The capacity-checked insertion of handle_client (server.py lines
299-312): under the lock, a full list means an ERROR frame and an immediate
close with no insertion; otherwise the record is appended with a cyclically
assigned color, fresh timestamps and a zero message count. -/
def serverTryInsert (clients : List Client) (sock : Nat) (addr : String × Nat)
    (uname : String) (p2pPort : Nat) (now : ℚ) : InsertResult :=
  if MAX_CLIENTS ≤ clients.length then
    ⟨clients, [(sock, "ERROR: Server je plný")], some sock, false⟩
  else
    ⟨clients ++ [⟨sock, addr, uname, p2pPort, now, now, 0, getUserColor clients.length⟩],
      [], none, true⟩

/-- The /list reply body (server.py lines 366-368). -/
def listUsers (clients : List Client) : String :=
  String.intercalate ", " (clients.map Client.username)

/-- The rate-limit rejection reply (server.py line 345, f-string filled in
with RATE_LIMIT_MESSAGES = 10 and RATE_LIMIT_WINDOW = 1.0). -/
def RATE_LIMIT_REPLY : String :=
  "ERROR: Příliš mnoho zpráv! Maximálně 10 zpráv za 1.0 sekund."

/-- The unknown-command reply (server.py line 428). -/
def UNKNOWN_COMMAND_REPLY : String := "ERROR: Neznámý příkaz. Použijte /help"

/-- The /help reply (server.py lines 409-425). -/
def HELP_TEXT : String :=
  "=== Chat Server - Nápověda ===\nVšechny vaše zprávy se automaticky posílají všem uživatelům v chatu.\n\nDostupné příkazy:\n/quit - Odpojení ze serveru\n/list - Seznam připojených uživatelů\n/pm <uživatel> <zpráva> - Soukromá zpráva přes server\n/getpeer <uživatel> - Získání P2P informací (IP:port) o uživateli\n/peers - Seznam všech uživatelů s P2P informacemi\n/help - Zobrazení této nápovědy\n\nPro soukromé zprávy:\n1. Použijte /getpeer <uživatel> pro získání P2P informací\n2. Spusťte P2P aplikaci a připojte se přímo k uživateli\n3. Nebo použijte /pm <uživatel> <zpráva> pro soukromou zprávu přes server\n\nPro odeslání zprávy jednoduše napište text a stiskněte Enter."

/-- The case-insensitive username lookup of /getpeer and /pm
(server.py lines 374-378 and 389-395): first match wins. -/
def findByName (target : String) : List Client → Option Client
  | [] => none
  | c :: rest =>
      if pyLower c.username = pyLower target then some c
      else findByName target rest

structure StepResult where
  clients : List Client
  replies : List (Nat × String)
  action : HandlerAction
deriving DecidableEq

/-- The command dispatch of handle_client (server.py lines 355-428); `msg`
starts with "/" when this branch runs. -/
def dispatchCommand (clients : List Client) (sock : Nat) (uname : String)
    (msg : String) : StepResult :=
  let command := firstToken msg
  if command = "/quit" then ⟨clients, [(sock, "Odpojování...")], .breakLoop⟩
  else if command = "/list" then
    ⟨clients, [(sock, "Připojení uživatelé: " ++ listUsers clients)], .continueLoop⟩
  else if command = "/getpeer" ∧ 2 ≤ (pyWords msg).length then
    let target := (pyWords msg).getD 1 ""
    match findByName target clients with
    | some c =>
        ⟨clients, [(sock, "PEER_INFO:" ++ c.username ++ ":" ++ c.addr.1 ++ ":"
          ++ toString c.p2pPort)], .continueLoop⟩
    | none =>
        ⟨clients, [(sock, "ERROR: Uživatel \x27" ++ target ++ "\x27 není připojen")],
          .continueLoop⟩
  else if command = "/pm" ∧ 3 ≤ (pyWords msg).length then
    let parts := (splitSpaceMax 2 msg.toList).map String.mk
    let target := parts.getD 1 ""
    let pmMessage := parts.getD 2 ""
    match findByName target clients with
    | some c =>
        ⟨clients, [(c.sock, "[PM od " ++ uname ++ "] " ++ pmMessage),
          (sock, "INFO: Soukromá zpráva odeslána " ++ c.username)], .continueLoop⟩
    | none =>
        ⟨clients, [(sock, "ERROR: Uživatel \x27" ++ target ++ "\x27 není připojen")],
          .continueLoop⟩
  else if command = "/peers" then
    ⟨clients, [(sock, "P2P informace:\n" ++ String.intercalate "\n"
      (clients.map (fun c => c.username ++ " (" ++ c.addr.1 ++ ":"
        ++ toString c.p2pPort ++ ")")))], .continueLoop⟩
  else if command = "/broadcast" ∧ 1 < (pyWords msg).length then
    ⟨clients,
      [(sock, "INFO: Všechny zprávy se automaticky posílají všem uživatelům. Stačí napsat zprávu.")],
      .continueLoop⟩
  else if command = "/help" then
    ⟨clients, [(sock, HELP_TEXT)], .continueLoop⟩
  else
    ⟨clients, [(sock, UNKNOWN_COMMAND_REPLY)], .continueLoop⟩

/-- One iteration of handle_client's main loop on an arrived nonempty
message (server.py lines 333-449): a whitespace-only message is skipped; a
literal PONG stamps the heartbeat; non-command traffic passes the rate
limiter — a rejection replies an ERROR and skips everything after it, the
heartbeat stamp included; then the heartbeat is stamped and the message is
dispatched: a command to dispatchCommand, chat text to a decorated
broadcast that includes the sender.  `hhmm` is the formatted wall-clock
timestamp; `sendOk` tells which sockets accept writes. -/
def handleMessage (sendOk : Nat → Bool) (clients : List Client) (sock : Nat)
    (uname : String) (hhmm : String) (now : ℚ) (msg : String) : StepResult :=
  if stripIsEmpty msg then ⟨clients, [], .continueLoop⟩
  else if msg = "PONG" then ⟨updateHeartbeat sock now clients, [], .continueLoop⟩
  else if startsWithSlash msg then
    dispatchCommand (updateHeartbeat sock now clients) sock uname msg
  else
    let rl := checkRateLimit sock now clients
    if rl.2 then
      let clients2 := updateHeartbeat sock now rl.1
      let color := (clients2.find? (fun c => c.sock == sock)).elim "37" Client.colorCode
      let chatMsg := "[COLOR:" ++ color ++ "][" ++ hhmm ++ "] " ++ uname ++ ": " ++ msg
      let bp := broadcastPass sendOk chatMsg none clients2
      ⟨removeMarked bp.2.2 clients2, bp.2.1, .continueLoop⟩
    else
      ⟨rl.1, [(sock, RATE_LIMIT_REPLY)], .continueLoop⟩

/-! Lemmas about the record-equality removal discipline. -/

lemma foldl_erase_cons (p : Client → Bool) (r : List Client) (x : Client)
    (hr : ∀ c ∈ r, p c = true) (hx : p x = false) :
    ∀ t : List Client,
      r.foldl (fun acc c => acc.erase c) (x :: t)
        = x :: r.foldl (fun acc c => acc.erase c) t := by
  induction r with
  | nil => intro t; rfl
  | cons c r ih =>
      intro t
      have hc : p c = true := hr c (List.mem_cons_self c r)
      have hbe : ¬ (x == c) = true := by
        intro hb
        rw [← eq_of_beq hb, hx] at hc
        exact Bool.false_ne_true hc
      simp only [List.foldl_cons]
      rw [List.erase_cons_tail hbe]
      exact ih (fun d hd => hr d (List.mem_cons_of_mem c hd)) (t.erase c)

/-- Removing, by record equality, exactly the records that a scan pass
selected from an unchanged list removes exactly the selected records. -/
lemma removeMarked_filter (p : Client → Bool) (l : List Client) :
    removeMarked (l.filter p) l = l.filter (fun c => !p c) := by
  induction l with
  | nil => rfl
  | cons x t ih =>
      by_cases hx : p x = true
      · rw [List.filter_cons_of_pos hx]
        unfold removeMarked at ih ⊢
        simp only [List.foldl_cons, List.erase_cons_head]
        rw [List.filter_cons_of_neg (by simp [hx])]
        exact ih
      · have hx' : p x = false := Bool.not_eq_true _ ▸ eq_false_of_ne_true hx
        rw [List.filter_cons_of_neg (by simp [hx'])]
        unfold removeMarked at ih ⊢
        rw [foldl_erase_cons p (t.filter p) x (fun d hd => List.of_mem_filter hd) hx' t]
        rw [List.filter_cons_of_pos (by simp [hx'])]
        exact congrArg (x :: ·) ih

/-- A marked record that no longer occurs in the current list (for example
because the record was rewritten in place while the lock was released) is
not removed. -/
lemma removeMarked_of_not_mem (marked cur : List Client)
    (h : ∀ m ∈ marked, m ∉ cur) : removeMarked marked cur = cur := by
  induction marked with
  | nil => rfl
  | cons m r ih =>
      unfold removeMarked at ih ⊢
      simp only [List.foldl_cons]
      rw [List.erase_of_not_mem (h m (List.mem_cons_self m r))]
      exact ih (fun d hd => h d (List.mem_cons_of_mem m hd))

lemma handlerFinally_filter (sock : Nat) (clients : List Client) :
    (handlerFinally sock clients).registry
      = clients.filter (fun c => !(c.sock == sock)) :=
  removeMarked_filter (fun c => c.sock == sock) clients

/-- The fan-out pass with no excluded socket: a delivery is attempted to
every member in order, the successes are counted, and exactly the failed
members are marked. -/
lemma broadcastPass_none (sendOk : Nat → Bool) (msg : String) :
    ∀ clients : List Client,
      broadcastPass sendOk msg none clients
        = ((clients.filter (fun c => sendOk c.sock)).length,
           clients.map (fun c => (c.sock, msg)),
           clients.filter (fun c => !(sendOk c.sock))) := by
  intro clients
  induction clients with
  | nil => rfl
  | cons c rest ih =>
      by_cases hc : sendOk c.sock = true
      · simp [broadcastPass, ih, List.filter_cons, hc]
      · have hc' : sendOk c.sock = false := by simpa using hc
        simp [broadcastPass, ih, List.filter_cons, hc']

lemma receiveMessage_oversize (L : Nat) (rest sched : List Nat)
    (h1 : 40960 < L) (h2 : L < 4294967296) :
    receiveMessage (packBE L ++ rest) sched = none := by
  obtain ⟨sc1, h4⟩ := recvLoop_spec 4 4 4 [] (packBE L ++ rest) sched (le_refl 4)
    (by simp [packBE]) (by omega)
  have htake : (packBE L ++ rest).take 4 = packBE L := by
    have := List.take_left (packBE L) rest
    rwa [packBE_length] at this
  rw [receiveMessage, h4, htake]
  have hub : unpackBE (packBE L) = L := unpackBE_packBE L h2
  simp only [List.nil_append, hub]
  rw [if_pos (by simp only [BUFFER_SIZE]; omega)]

/-- C2: a frame whose decoded 4-byte length prefix exceeds 40960 makes
receive_message return None (no exception is raised — the model is total);
the handler's loop breaks on the falsy result, and its finally-cleanup
removes every record holding that socket and closes it; a decoded length of
at most 40960 is not rejected by this check — with the full body delivered,
the payload is returned. -/
theorem C2_oversize_rejection (L : Nat) (rest sched sched2 : List Nat)
    (clients : List Client) (s : Nat) (payload : List Nat)
    (h1 : 40960 < L) (h2 : L < 4294967296) (h3 : payload.length ≤ 40960) :
    receiveMessage (packBE L ++ rest) sched = none
    ∧ handlerBreaksOn none = true
    ∧ (handlerFinally s clients).registry = clients.filter (fun c => !(c.sock == s))
    ∧ (handlerFinally s clients).closedSock = s
    ∧ receiveMessage (packBE payload.length ++ payload) sched2 = some payload :=
  ⟨receiveMessage_oversize L rest sched h1 h2, rfl,
   handlerFinally_filter s clients, rfl,
   receiveMessage_frame payload sched2 h3⟩

/-- Witness for C2 at the concrete oversize length 40961 and the concrete
in-bounds empty payload. -/
theorem C2_oversize_rejection_witness :
    receiveMessage (packBE 40961 ++ []) [] = none
    ∧ receiveMessage (packBE ([] : List Nat).length ++ []) [] = some [] :=
  ⟨(C2_oversize_rejection 40961 [] [] [] [] 0 [] (by decide) (by decide) (by decide)).1,
   (C2_oversize_rejection 40961 [] [] [] [] 0 [] (by decide) (by decide) (by decide)).2.2.2.2⟩

/-- C9: a syntactically valid empty frame (length prefix 0, empty payload)
makes receive_message return the empty string, which the handler's falsy
check treats exactly like EOF: both break the loop, and the finally-cleanup
removes the records of that socket and closes it — a peer sending an empty
message is dropped even though the wire format permits the frame. -/
theorem C9_empty_frame_drops_connection (sched : List Nat)
    (clients : List Client) (s : Nat) :
    receiveMessage [0, 0, 0, 0] sched = some []
    ∧ handlerBreaksOn (some []) = handlerBreaksOn none
    ∧ handlerBreaksOn (some []) = true
    ∧ (handlerFinally s clients).registry = clients.filter (fun c => !(c.sock == s))
    ∧ (handlerFinally s clients).closedSock = s := by
  refine ⟨?_, rfl, rfl, handlerFinally_filter s clients, rfl⟩
  have h := receiveMessage_frame [] sched (by decide)
  simpa [sendMessage, packBE] using h

/-- C5 counterexample: an eviction-marked record whose stored tuple was
rewritten (here by update_heartbeat) between the monitor's scan pass and
its removal pass is not removed — the code removes by whole-record equality
against the snapshot object, whereas removal by registry key (the remote
address) would drop it.  This refutes the claim that the marked members are
removed by key comparison rather than by comparing the stale records. -/
theorem C5_counterexample_stale_record_removal :
    (heartbeatScan 201 [⟨1, ("h", 2), "a", 8081, 0, 0, 0, "31"⟩]).1
        = [⟨1, ("h", 2), "a", 8081, 0, 0, 0, "31"⟩]
    ∧ updateHeartbeat 1 50 [⟨1, ("h", 2), "a", 8081, 0, 0, 0, "31"⟩]
        = [⟨1, ("h", 2), "a", 8081, 50, 0, 0, "31"⟩]
    ∧ heartbeatEvict [⟨1, ("h", 2), "a", 8081, 0, 0, 0, "31"⟩]
        [⟨1, ("h", 2), "a", 8081, 50, 0, 0, "31"⟩]
        = [⟨1, ("h", 2), "a", 8081, 50, 0, 0, "31"⟩]
    ∧ removeByKeySpec [⟨1, ("h", 2), "a", 8081, 0, 0, 0, "31"⟩]
        [⟨1, ("h", 2), "a", 8081, 50, 0, 0, "31"⟩] = [] := by
  refine ⟨?_, ?_, ?_, ?_⟩
  · norm_num [heartbeatScan, HEARTBEAT_TIMEOUT]
  · norm_num [updateHeartbeat]
  · show removeMarked _ _ = _
    unfold removeMarked
    simp only [List.foldl_cons, List.foldl_nil]
    rw [List.erase_of_not_mem]
    norm_num [Client.mk.injEq]
  · norm_num [removeByKeySpec]

/-- C5 (amended): during broadcast a failed send marks that member while the
fan-out continues over all remaining members — a delivery is attempted to
every non-excluded member and the marked list is exactly the failed
members; after the pass the marked members are removed by erasing records
equal to the snapshot record objects, not by key comparison: inside
broadcast_message the lock is held across the pass, so this removes exactly
the marked members, and the heartbeat monitor's eviction pass applies the
identical record-equality discipline, under which a marked record that no
longer occurs in the current registry (for instance rewritten by a
heartbeat update after the scan) is not removed at all. -/
theorem C5_amended_broadcast_and_eviction (sendOk : Nat → Bool) (msg : String)
    (clients marked cur : List Client) :
    (broadcastPass sendOk msg none clients).2.2
        = clients.filter (fun c => !(sendOk c.sock))
    ∧ (broadcastPass sendOk msg none clients).2.1
        = clients.map (fun c => (c.sock, msg))
    ∧ (broadcastPass sendOk msg none clients).1
        = (clients.filter (fun c => sendOk c.sock)).length
    ∧ (broadcastMessage sendOk msg none clients).2
        = clients.filter (fun c => sendOk c.sock)
    ∧ heartbeatEvict marked cur = removeMarked marked cur
    ∧ ((∀ m ∈ marked, m ∉ cur) → heartbeatEvict marked cur = cur) := by
  have hbp := broadcastPass_none sendOk msg clients
  refine ⟨by rw [hbp], by rw [hbp], by rw [hbp], ?_, rfl,
    removeMarked_of_not_mem marked cur⟩
  show removeMarked (broadcastPass sendOk msg none clients).2.2 clients = _
  rw [hbp]
  have := removeMarked_filter (fun c => !(sendOk c.sock)) clients
  simpa using this

/-- Witness for C5 (amended) at a concrete marked record absent from the
current registry. -/
theorem C5_amended_witness :
    heartbeatEvict [⟨1, ("h", 2), "a", 8081, 0, 0, 0, "31"⟩] [] = [] :=
  (C5_amended_broadcast_and_eviction (fun _ => true) "x" []
    [⟨1, ("h", 2), "a", 8081, 0, 0, 0, "31"⟩] []).2.2.2.2.2 (by simp)

/-! Rate limiting. -/

/-- The per-record effect of a burst of non-command messages arriving at the
given times: iterate check_rate_limit's in-place update, counting admitted
and rejected messages.  Returns (final record, admitted, rejected). -/
def runRec : Client → List ℚ → Client × Nat × Nat
  | c, [] => (c, 0, 0)
  | c, t :: ts =>
      if (checkRateLimitRec c t).2 then
        ((runRec (checkRateLimitRec c t).1 ts).1,
         (runRec (checkRateLimitRec c t).1 ts).2.1 + 1,
         (runRec (checkRateLimitRec c t).1 ts).2.2)
      else
        ((runRec (checkRateLimitRec c t).1 ts).1,
         (runRec (checkRateLimitRec c t).1 ts).2.1,
         (runRec (checkRateLimitRec c t).1 ts).2.2 + 1)

lemma runRec_counts : ∀ (times : List ℚ) (c : Client),
    (∀ t ∈ times, t - c.lastMessageTime < RATE_LIMIT_WINDOW) →
    c.messageCount ≤ RATE_LIMIT_MESSAGES →
    (runRec c times).2.1 = min times.length (RATE_LIMIT_MESSAGES - c.messageCount)
    ∧ (runRec c times).2.2
        = times.length - min times.length (RATE_LIMIT_MESSAGES - c.messageCount) := by
  intro times
  induction times with
  | nil => intro c _ _; simp [runRec]
  | cons t ts ih =>
      intro c h1 h2
      have hwin : t - c.lastMessageTime < RATE_LIMIT_WINDOW :=
        h1 t (List.mem_cons_self t ts)
      have hnr : ¬ RATE_LIMIT_WINDOW ≤ t - c.lastMessageTime := not_le.mpr hwin
      by_cases hcnt : c.messageCount < RATE_LIMIT_MESSAGES
      · have hrec : checkRateLimitRec c t
            = ({ c with messageCount := c.messageCount + 1 }, true) := by
          unfold checkRateLimitRec
          rw [if_neg hnr, if_pos hcnt]
        have hih := ih { c with messageCount := c.messageCount + 1 }
          (fun t' ht' => h1 t' (List.mem_cons_of_mem t ht'))
          (by show c.messageCount + 1 ≤ RATE_LIMIT_MESSAGES; omega)
        unfold runRec
        rw [hrec]
        simp only [if_true, List.length_cons]
        rw [hih.1, hih.2]
        dsimp only
        constructor <;> omega
      · have hrec : checkRateLimitRec c t = (c, false) := by
          unfold checkRateLimitRec
          rw [if_neg hnr, if_neg hcnt]
        have hge : RATE_LIMIT_MESSAGES ≤ c.messageCount := not_lt.mp hcnt
        have hih := ih c (fun t' ht' => h1 t' (List.mem_cons_of_mem t ht')) h2
        unfold runRec
        rw [hrec]
        simp only [Bool.false_eq_true, if_false, List.length_cons]
        rw [hih.1, hih.2]
        constructor <;> omega

lemma checkRateLimitRec_reject (c : Client) (now : ℚ)
    (h : (checkRateLimitRec c now).2 = false) : (checkRateLimitRec c now).1 = c := by
  unfold checkRateLimitRec at h ⊢
  by_cases h1 : RATE_LIMIT_WINDOW ≤ now - c.lastMessageTime
  · rw [if_pos h1] at h; simp at h
  · rw [if_neg h1] at h ⊢
    by_cases h2 : c.messageCount < RATE_LIMIT_MESSAGES
    · rw [if_pos h2] at h; simp at h
    · rw [if_neg h2]

/-- A rejected message leaves the registry unchanged (the reject branch of
check_rate_limit writes nothing back). -/
lemma checkRateLimit_reject_id : ∀ (clients : List Client) (sock : Nat) (now : ℚ),
    (checkRateLimit sock now clients).2 = false →
    (checkRateLimit sock now clients).1 = clients := by
  intro clients
  induction clients with
  | nil => intro sock now _; rfl
  | cons c rest ih =>
      intro sock now h
      unfold checkRateLimit at h ⊢
      by_cases hc : c.sock = sock
      · rw [if_pos hc] at h ⊢
        dsimp only at h ⊢
        rw [checkRateLimitRec_reject c now h]
      · rw [if_neg hc] at h ⊢
        dsimp only at h ⊢
        rw [ih sock now h]

/-- The handler's reaction to a rate-limited non-command message
(server.py lines 342-347): ERROR reply to the sender, loop continues,
registry untouched. -/
lemma handleMessage_rejected (sendOk : Nat → Bool) (clients : List Client)
    (sock : Nat) (uname hhmm : String) (now : ℚ) (msg : String)
    (h1 : stripIsEmpty msg = false) (h2 : msg ≠ "PONG")
    (h3 : startsWithSlash msg = false)
    (h4 : (checkRateLimit sock now clients).2 = false) :
    handleMessage sendOk clients sock uname hhmm now msg
      = ⟨clients, [(sock, RATE_LIMIT_REPLY)], .continueLoop⟩ := by
  unfold handleMessage
  rw [if_neg (by rw [h1]; exact Bool.false_ne_true), if_neg h2,
    if_neg (by rw [h3]; exact Bool.false_ne_true)]
  dsimp only
  rw [if_neg (by rw [h4]; exact Bool.false_ne_true)]
  rw [checkRateLimit_reject_id clients sock now h4]

/-- C3: check_rate_limit admits with a count reset to 1 once a full window
has elapsed, admits and increments while the count is below 10 inside the
window, and rejects otherwise; consequently a fresh record receiving 11
non-command messages inside one window admits exactly 10 and rejects 1; and
the handler answers a rejected message with an ERROR reply while the
connection stays registered (registry unchanged) and open (the loop
continues). -/
theorem C3_rate_limiting (c : Client) (now : ℚ) (times : List ℚ)
    (sendOk : Nat → Bool) (clients : List Client) (sock : Nat)
    (uname hhmm msg : String) :
    (RATE_LIMIT_WINDOW ≤ now - c.lastMessageTime →
      checkRateLimitRec c now
        = ({ c with lastMessageTime := now, messageCount := 1 }, true))
    ∧ (now - c.lastMessageTime < RATE_LIMIT_WINDOW →
        c.messageCount < RATE_LIMIT_MESSAGES →
        checkRateLimitRec c now = ({ c with messageCount := c.messageCount + 1 }, true))
    ∧ (now - c.lastMessageTime < RATE_LIMIT_WINDOW →
        RATE_LIMIT_MESSAGES ≤ c.messageCount →
        checkRateLimitRec c now = (c, false))
    ∧ (c.messageCount = 0 → times.length = 11 →
        (∀ t ∈ times, t - c.lastMessageTime < RATE_LIMIT_WINDOW) →
        (runRec c times).2.1 = 10 ∧ (runRec c times).2.2 = 1)
    ∧ (stripIsEmpty msg = false → msg ≠ "PONG" → startsWithSlash msg = false →
        (checkRateLimit sock now clients).2 = false →
        handleMessage sendOk clients sock uname hhmm now msg
          = ⟨clients, [(sock, RATE_LIMIT_REPLY)], .continueLoop⟩) := by
  refine ⟨?_, ?_, ?_, ?_, ?_⟩
  · intro h
    unfold checkRateLimitRec
    rw [if_pos h]
  · intro h1 h2
    unfold checkRateLimitRec
    rw [if_neg (not_le.mpr h1), if_pos h2]
  · intro h1 h2
    unfold checkRateLimitRec
    rw [if_neg (not_le.mpr h1), if_neg (not_lt.mpr h2)]
  · intro h0 hlen hwin
    have h := runRec_counts times c hwin (by rw [h0]; exact Nat.zero_le _)
    have hM : RATE_LIMIT_MESSAGES = 10 := rfl
    rw [h.1, h.2]
    omega
  · exact handleMessage_rejected sendOk clients sock uname hhmm now msg

/-- Evaluation helper: a record already at count 10 inside its window is
rejected with the registry unchanged. -/
lemma checkRateLimit_full_record :
    checkRateLimit 1 (1/2) [⟨1, ("h", 2), "a", 8081, 0, 0, 10, "31"⟩]
      = ([⟨1, ("h", 2), "a", 8081, 0, 0, 10, "31"⟩], false) := by
  unfold checkRateLimit checkRateLimitRec
  norm_num [RATE_LIMIT_WINDOW, RATE_LIMIT_MESSAGES]

/-- Rat arithmetic facts used by the witnesses. -/
lemma rat_window_elapsed : RATE_LIMIT_WINDOW ≤ (2 : ℚ) - 0 := by
  norm_num [RATE_LIMIT_WINDOW]

lemma rat_window_inside : (0 : ℚ) - 0 < RATE_LIMIT_WINDOW := by
  norm_num [RATE_LIMIT_WINDOW]

lemma rat_burst_inside (t : ℚ) (ht : t ∈ List.replicate 11 (0 : ℚ)) :
    t - (0 : ℚ) < RATE_LIMIT_WINDOW := by
  rw [List.eq_of_mem_replicate ht]
  norm_num [RATE_LIMIT_WINDOW]

/-- Witness for C3: the three window cases, the 11-message burst and the
handler reaction at concrete inputs. -/
theorem C3_rate_limiting_witness :
    checkRateLimitRec ⟨1, ("h", 2), "a", 8081, 0, 0, 3, "31"⟩ 2
      = (⟨1, ("h", 2), "a", 8081, 0, 2, 1, "31"⟩, true)
    ∧ checkRateLimitRec ⟨1, ("h", 2), "a", 8081, 0, 0, 3, "31"⟩ 0
      = (⟨1, ("h", 2), "a", 8081, 0, 0, 4, "31"⟩, true)
    ∧ checkRateLimitRec ⟨1, ("h", 2), "a", 8081, 0, 0, 10, "31"⟩ 0
      = (⟨1, ("h", 2), "a", 8081, 0, 0, 10, "31"⟩, false)
    ∧ (runRec ⟨1, ("h", 2), "a", 8081, 0, 0, 0, "31"⟩
        (List.replicate 11 (0 : ℚ))).2.1 = 10
    ∧ (runRec ⟨1, ("h", 2), "a", 8081, 0, 0, 0, "31"⟩
        (List.replicate 11 (0 : ℚ))).2.2 = 1
    ∧ handleMessage (fun _ => true) [⟨1, ("h", 2), "a", 8081, 0, 0, 10, "31"⟩] 1
        "a" "12:00" (1/2) "hello"
      = ⟨[⟨1, ("h", 2), "a", 8081, 0, 0, 10, "31"⟩], [(1, RATE_LIMIT_REPLY)],
          .continueLoop⟩ := by
  refine ⟨?_, ?_, ?_, ?_, ?_, ?_⟩
  · exact (C3_rate_limiting ⟨1, ("h", 2), "a", 8081, 0, 0, 3, "31"⟩ 2 []
      (fun _ => true) [] 1 "a" "h" "m").1 rat_window_elapsed
  · exact (C3_rate_limiting ⟨1, ("h", 2), "a", 8081, 0, 0, 3, "31"⟩ 0 []
      (fun _ => true) [] 1 "a" "h" "m").2.1 rat_window_inside (by decide)
  · exact (C3_rate_limiting ⟨1, ("h", 2), "a", 8081, 0, 0, 10, "31"⟩ 0 []
      (fun _ => true) [] 1 "a" "h" "m").2.2.1 rat_window_inside (by decide)
  · exact ((C3_rate_limiting ⟨1, ("h", 2), "a", 8081, 0, 0, 0, "31"⟩ 0
      (List.replicate 11 (0 : ℚ)) (fun _ => true) [] 1 "a" "h" "m").2.2.2.1
      rfl rfl (fun t ht => rat_burst_inside t ht)).1
  · exact ((C3_rate_limiting ⟨1, ("h", 2), "a", 8081, 0, 0, 0, "31"⟩ 0
      (List.replicate 11 (0 : ℚ)) (fun _ => true) [] 1 "a" "h" "m").2.2.2.1
      rfl rfl (fun t ht => rat_burst_inside t ht)).2
  · exact (C3_rate_limiting ⟨1, ("h", 2), "a", 8081, 0, 0, 10, "31"⟩ (1/2) []
      (fun _ => true) [⟨1, ("h", 2), "a", 8081, 0, 0, 10, "31"⟩] 1 "a" "12:00"
      "hello").2.2.2.2 (by decide) (by decide) (by decide)
      (congrArg Prod.snd checkRateLimit_full_record)

/-! Heartbeat freshness (claim C6). -/

lemma dispatchCommand_clients (clients : List Client) (sock : Nat)
    (uname msg : String) :
    (dispatchCommand clients sock uname msg).clients = clients := by
  unfold dispatchCommand
  dsimp only
  repeat' split
  all_goals rfl

/-- C6 counterexample: a non-command message that the rate limiter rejects
does not update last_heartbeat — the handler replies the ERROR and
continues the loop before reaching update_heartbeat, so the stored record
keeps its old stamp (an update would have produced the different record
shown). -/
theorem C6_counterexample_rejected_message_keeps_heartbeat :
    handleMessage (fun _ => true) [⟨1, ("h", 2), "a", 8081, 0, 0, 10, "31"⟩] 1
        "a" "12:00" (1/2) "hello"
      = ⟨[⟨1, ("h", 2), "a", 8081, 0, 0, 10, "31"⟩], [(1, RATE_LIMIT_REPLY)],
          .continueLoop⟩
    ∧ updateHeartbeat 1 (1/2) [⟨1, ("h", 2), "a", 8081, 0, 0, 10, "31"⟩]
      = [⟨1, ("h", 2), "a", 8081, 1/2, 0, 10, "31"⟩]
    ∧ ([⟨1, ("h", 2), "a", 8081, 0, 0, 10, "31"⟩] : List Client)
      ≠ [⟨1, ("h", 2), "a", 8081, 1/2, 0, 10, "31"⟩] := by
  refine ⟨?_, ?_, ?_⟩
  · exact handleMessage_rejected (fun _ => true) _ 1 "a" "12:00" (1/2) "hello"
      (by decide) (by decide) (by decide)
      (congrArg Prod.snd checkRateLimit_full_record)
  · norm_num [updateHeartbeat]
  · norm_num [Client.mk.injEq]

/-- C6 (amended): a literal PONG, any command (including one the dispatcher
rejects as unknown) and an admitted chat message all stamp last_heartbeat;
but a whitespace-only message and a non-command message rejected by the
rate limiter leave the registry — the heartbeat stamp included —
untouched. -/
theorem C6_amended_heartbeat_freshness (clients : List Client) (sock : Nat)
    (uname hhmm : String) (now : ℚ) (msg : String) :
    (handleMessage (fun _ => true) clients sock uname hhmm now "PONG").clients
        = updateHeartbeat sock now clients
    ∧ (stripIsEmpty msg = false → startsWithSlash msg = true →
        (handleMessage (fun _ => true) clients sock uname hhmm now msg).clients
          = updateHeartbeat sock now clients)
    ∧ (stripIsEmpty msg = false → msg ≠ "PONG" → startsWithSlash msg = false →
        (checkRateLimit sock now clients).2 = true →
        (handleMessage (fun _ => true) clients sock uname hhmm now msg).clients
          = updateHeartbeat sock now (checkRateLimit sock now clients).1)
    ∧ (stripIsEmpty msg = true →
        (handleMessage (fun _ => true) clients sock uname hhmm now msg).clients
          = clients)
    ∧ (stripIsEmpty msg = false → msg ≠ "PONG" → startsWithSlash msg = false →
        (checkRateLimit sock now clients).2 = false →
        (handleMessage (fun _ => true) clients sock uname hhmm now msg).clients
          = clients) := by
  refine ⟨?_, ?_, ?_, ?_, ?_⟩
  · unfold handleMessage
    rw [if_neg (by decide), if_pos rfl]
  · intro h1 h3
    unfold handleMessage
    rw [if_neg (by rw [h1]; exact Bool.false_ne_true)]
    by_cases h2 : msg = "PONG"
    · rw [h2] at h3; exact absurd h3 (by decide)
    · rw [if_neg h2, if_pos h3]
      exact dispatchCommand_clients _ sock uname msg
  · intro h1 h2 h3 h4
    unfold handleMessage
    rw [if_neg (by rw [h1]; exact Bool.false_ne_true), if_neg h2,
      if_neg (by rw [h3]; exact Bool.false_ne_true)]
    dsimp only
    rw [if_pos h4]
    dsimp only
    rw [broadcastPass_none]
    show removeMarked (List.filter _ _) _ = _
    rw [show (fun c => !(fun _ => true) c.sock) = (fun (_ : Client) => false) from rfl]
    rw [List.filter_false]
    rfl
  · intro h1
    unfold handleMessage
    rw [if_pos h1]
  · intro h1 h2 h3 h4
    rw [handleMessage_rejected (fun _ => true) clients sock uname hhmm now msg h1 h2 h3 h4]

/-- Witness for C6 (amended) at concrete messages of every kind. -/
theorem C6_amended_heartbeat_freshness_witness :
    (handleMessage (fun _ => true) [] 1 "a" "12:00" 0 "/x").clients
        = updateHeartbeat 1 0 []
    ∧ (handleMessage (fun _ => true) [] 1 "a" "12:00" 0 "hi").clients
        = updateHeartbeat 1 0 (checkRateLimit 1 0 []).1
    ∧ (handleMessage (fun _ => true) [] 1 "a" "12:00" 0 " ").clients = []
    ∧ (handleMessage (fun _ => true) [⟨1, ("h", 2), "a", 8081, 0, 0, 10, "31"⟩] 1
        "a" "12:00" (1/2) "hello").clients
        = [⟨1, ("h", 2), "a", 8081, 0, 0, 10, "31"⟩] :=
  ⟨(C6_amended_heartbeat_freshness [] 1 "a" "12:00" 0 "/x").2.1 (by decide) (by decide),
   (C6_amended_heartbeat_freshness [] 1 "a" "12:00" 0 "hi").2.2.1 (by decide)
     (by decide) (by decide) rfl,
   (C6_amended_heartbeat_freshness [] 1 "a" "12:00" 0 " ").2.2.2.1 (by decide),
   (C6_amended_heartbeat_freshness [⟨1, ("h", 2), "a", 8081, 0, 0, 10, "31"⟩] 1
     "a" "12:00" (1/2) "hello").2.2.2.2 (by decide) (by decide) (by decide)
     (congrArg Prod.snd checkRateLimit_full_record)⟩

/-! The hybrid P2P peer (src/P2P/Python/peer2peer.py). -/

/-- peer2peer.py line 29. -/
def MAX_PEERS : Nat := 50

/-- peer2peer.py line 32 (seconds). -/
def HEARTBEAT_INTERVAL : ℚ := 30

/-- The value of one `connected_peers` entry (peer2peer.py line 43):
(socket, username, last_heartbeat), keyed by the peer address. -/
structure PeerRec where
  sock : Nat
  uname : String
  lastHeartbeat : ℚ
deriving DecidableEq

abbrev Addr := String × Nat

abbrev Peers := List (Addr × PeerRec)

/-- Python dict lookup `connected_peers[k]` / `k in connected_peers`. -/
def dictLookup (k : Addr) : Peers → Option PeerRec
  | [] => none
  | (k', v) :: t => if k' = k then some v else dictLookup k t

/-- Python dict assignment `connected_peers[k] = v`. -/
def dictInsert (k : Addr) (v : PeerRec) : Peers → Peers
  | [] => [(k, v)]
  | (k', v') :: t => if k' = k then (k, v) :: t else (k', v') :: dictInsert k v t

/-- Python `del connected_peers[k]`. -/
def dictDelete (k : Addr) (d : Peers) : Peers :=
  d.filter (fun p => !(p.1 == k))

/-- The heartbeat stamp of handle_incoming_peer (peer2peer.py lines
164-168): rewrite the entry for this address with the current time. -/
def peerUpdateHeartbeat (addr : Addr) (now : ℚ) : Peers → Peers
  | [] => []
  | (a, r) :: t =>
      if a = addr then (a, { r with lastHeartbeat := now }) :: t
      else (a, r) :: peerUpdateHeartbeat addr now t

/-- The /list reply body of the peer (peer2peer.py lines 179-182). -/
def peerListStr (peers : Peers) : String :=
  String.intercalate ", "
    (peers.map (fun p => p.2.uname ++ " (" ++ p.1.1 ++ ":" ++ toString p.1.2 ++ ")"))

structure PeerStep where
  peers : Peers
  replies : List (Nat × String)
  action : HandlerAction
deriving DecidableEq

/-- One loop iteration of handle_incoming_peer on an arrived message
(peer2peer.py lines 158-188): stamp the heartbeat, then handle /quit,
/ping and /list; any other command and any plain text are echoed. -/
def peerHandleMessage (peers : Peers) (paddr : Addr) (psock : Nat) (now : ℚ)
    (msg : String) : PeerStep :=
  let peers1 := peerUpdateHeartbeat paddr now peers
  if startsWithSlash msg then
    let command := firstToken msg
    if command = "/quit" then ⟨peers1, [(psock, "Odpojování...")], .breakLoop⟩
    else if command = "/ping" then ⟨peers1, [(psock, "PONG")], .continueLoop⟩
    else if command = "/list" then
      ⟨peers1, [(psock, "Připojení peery: " ++ peerListStr peers1)], .continueLoop⟩
    else ⟨peers1, [(psock, "Echo: " ++ msg)], .continueLoop⟩
  else ⟨peers1, [(psock, "Echo: " ++ msg)], .continueLoop⟩

structure PeerInsertResult where
  peers : Peers
  replies : List (Nat × String)
  closedSock : Option Nat
  accepted : Bool
deriving DecidableEq

/-- The capacity-checked insertion of handle_incoming_peer (peer2peer.py
lines 144-152): under the lock, a full dict means an ERROR frame and an
immediate close with no insertion; otherwise the entry is stored under the
peer's address with a fresh timestamp. -/
def peerTryInsert (peers : Peers) (paddr : Addr) (psock : Nat) (puname : String)
    (now : ℚ) : PeerInsertResult :=
  if MAX_PEERS ≤ peers.length then
    ⟨peers, [(psock, "ERROR: Maximální počet peerů dosažen")], some psock, false⟩
  else
    ⟨dictInsert paddr ⟨psock, puname, now⟩ peers, [], none, true⟩

lemma dictInsert_length (k : Addr) (v : PeerRec) :
    ∀ d : Peers, (dictInsert k v d).length ≤ d.length + 1 := by
  intro d
  induction d with
  | nil => simp [dictInsert]
  | cons p t ih =>
      obtain ⟨k', v'⟩ := p
      unfold dictInsert
      by_cases h : k' = k
      · rw [if_pos h]; simp
      · rw [if_neg h]
        simp only [List.length_cons]
        omega

/-- C7 counterexample: the chat server's dispatch has no /ping case — a
"/ping" payload falls through to the unknown-command branch and the reply
is the explicit error, not the literal PONG the claim requires. -/
theorem C7_counterexample_server_has_no_ping :
    (handleMessage (fun _ => true) [] 1 "a" "12:00" 0 "/ping").replies
        = [(1, UNKNOWN_COMMAND_REPLY)]
    ∧ UNKNOWN_COMMAND_REPLY ≠ "PONG" := by
  constructor
  · simp [handleMessage, dispatchCommand,
      (by decide : stripIsEmpty "/ping" = false),
      (by decide : startsWithSlash "/ping" = true),
      (by decide : firstToken "/ping" = "/ping"),
      (by decide : ("/ping" : String) ≠ "PONG"),
      (by decide : ("/ping" : String) ≠ "/quit"),
      (by decide : ("/ping" : String) ≠ "/list"),
      (by decide : ("/ping" : String) ≠ "/getpeer"),
      (by decide : ("/ping" : String) ≠ "/pm"),
      (by decide : ("/ping" : String) ≠ "/peers"),
      (by decide : ("/ping" : String) ≠ "/broadcast"),
      (by decide : ("/ping" : String) ≠ "/help")]
  · decide

/-- C7 (amended): the P2P peer's incoming handler replies the literal PONG
to a "/ping" payload, while the chat server's dispatch treats "/ping" as an
unknown command and replies the explicit error; both keep the connection
(the loop continues). -/
theorem C7_amended_ping_dispatch (sendOk : Nat → Bool) (clients : List Client)
    (sock : Nat) (uname hhmm : String) (now : ℚ)
    (peers : Peers) (paddr : Addr) (psock : Nat) (pnow : ℚ) :
    (handleMessage sendOk clients sock uname hhmm now "/ping").replies
        = [(sock, UNKNOWN_COMMAND_REPLY)]
    ∧ (handleMessage sendOk clients sock uname hhmm now "/ping").action
        = HandlerAction.continueLoop
    ∧ (peerHandleMessage peers paddr psock pnow "/ping").replies
        = [(psock, "PONG")]
    ∧ (peerHandleMessage peers paddr psock pnow "/ping").action
        = HandlerAction.continueLoop := by
  refine ⟨?_, ?_, ?_, ?_⟩ <;>
    simp [handleMessage, dispatchCommand, peerHandleMessage,
      (by decide : stripIsEmpty "/ping" = false),
      (by decide : startsWithSlash "/ping" = true),
      (by decide : firstToken "/ping" = "/ping"),
      (by decide : ("/ping" : String) ≠ "PONG"),
      (by decide : ("/ping" : String) ≠ "/quit"),
      (by decide : ("/ping" : String) ≠ "/list"),
      (by decide : ("/ping" : String) ≠ "/getpeer"),
      (by decide : ("/ping" : String) ≠ "/pm"),
      (by decide : ("/ping" : String) ≠ "/peers"),
      (by decide : ("/ping" : String) ≠ "/broadcast"),
      (by decide : ("/ping" : String) ≠ "/help")]

/-! The shutdown path of main (server.py lines 550-572). -/

/-- A Python value as stored in a client tuple. -/
inductive PyObj where
  | sockv : Nat → PyObj
  | addrv : String × Nat → PyObj
  | strv : String → PyObj
  | natv : Nat → PyObj
  | ratv : ℚ → PyObj

/-- The stored 8-tuple of a client record, exactly as appended at
server.py line 311 (and documented at line 53). -/
def Client.tuple (c : Client) : List PyObj :=
  [.sockv c.sock, .addrv c.addr, .strv c.username, .natv c.p2pPort,
   .ratv c.lastHeartbeat, .ratv c.lastMessageTime, .natv c.messageCount,
   .strv c.colorCode]

/-- The iteration unpacking of server.py line 557:
`for client_sock, address, username, p2p_port, _, _, _ in clients[:]` has
exactly seven targets; iterating a tuple of any other arity raises
ValueError. -/
def unpack7 : List PyObj →
    Option (PyObj × PyObj × PyObj × PyObj × PyObj × PyObj × PyObj)
  | [a, b, c, d, e, f, g] => some (a, b, c, d, e, f, g)
  | _ => none

/-- The farewell loop of main's finally block (server.py lines 556-562):
unpack each record, send the farewell, close the socket; an unpack failure
raises and aborts the whole block (there is no handler around the loop
inside the finally block). -/
def shutdownLoop : List Client → List (Nat × String) → List Nat →
    Except String (List (Nat × String) × List Nat)
  | [], fw, cl => Except.ok (fw, cl)
  | c :: rest, fw, cl =>
      match unpack7 c.tuple with
      | none => Except.error "ValueError: too many values to unpack"
      | some _ =>
          shutdownLoop rest (fw ++ [(c.sock, "Server se ukončuje...")]) (cl ++ [c.sock])

structure ShutdownResult where
  farewells : List (Nat × String)
  closed : List Nat
  registry : List Client
  listenerClosed : Bool
deriving DecidableEq

/-- The graceful-shutdown block of main (server.py lines 550-572): farewell
and close every client, clear the registry, close the listening socket
last; an exception escaping the farewell loop aborts all of that. -/
def mainShutdown (clients : List Client) : Except String ShutdownResult :=
  match shutdownLoop clients [] [] with
  | Except.error e => Except.error e
  | Except.ok (fw, cl) => Except.ok ⟨fw, cl, [], true⟩

/-- C8 (code bug): the records stored in `clients` are 8-tuples (server.py
line 311, documented at line 53), but the shutdown loop unpacks each of
them into seven targets (line 557), so for every non-empty registry the
first iteration raises ValueError: no farewell is sent, the registry is not
cleared and the listening socket is never closed.  Only the empty registry
shuts down as the claim describes. -/
theorem C8_shutdown_unpack_valueerror (c : Client) (rest : List Client) :
    c.tuple.length = 8
    ∧ unpack7 c.tuple = none
    ∧ mainShutdown (c :: rest) = Except.error "ValueError: too many values to unpack"
    ∧ mainShutdown [] = Except.ok ⟨[], [], [], true⟩ :=
  ⟨rfl, rfl, rfl, rfl⟩

/-! The outbound side of the P2P peer (claim C10). -/

/-- The insertion connect_to_peer performs after a successful connect
(peer2peer.py lines 282-285): the entry is keyed by the dialled address,
named Peer_<port> and stamped with the connect time. -/
def connectInsert (host : String) (port sock : Nat) (t0 : ℚ)
    (peers : Peers) : Peers :=
  dictInsert (host, port) ⟨sock, "Peer_" ++ toString port, t0⟩ peers

/-- One iteration of connect_to_peer's receive_from_peer loop
(peer2peer.py lines 288-300): a received message is only printed — the
registry is not touched; `none` breaks the loop (the deletion only happens
after the loop exits). -/
def receiveFromPeerIter (peers : Peers) (m : Option String) : Peers × Bool :=
  match m with
  | some _ => (peers, false)
  | none => (peers, true)

/-- The registry effect of the outbound receive loop across a trace of
received messages. -/
def receiveFromPeerRun (peers : Peers) (msgs : List String) : Peers :=
  msgs.foldl (fun p m => (receiveFromPeerIter p (some m)).1) peers

/-- One deletion step of cleanup_disconnected_peers (peer2peer.py lines
393-400): if the address is still present, close its socket and delete the
entry. -/
def cleanupStep (st : Peers × List Nat) (a : Addr) : Peers × List Nat :=
  match dictLookup a st.1 with
  | some r => (dictDelete a st.1, st.2 ++ [r.sock])
  | none => st

/-- cleanup_disconnected_peers (peer2peer.py lines 381-401): collect every
address whose last_heartbeat is older than 3 × HEARTBEAT_INTERVAL, then
close and delete each.  Returns the new dict and the closed sockets. -/
def cleanupDisconnectedPeers (now : ℚ) (peers : Peers) : Peers × List Nat :=
  ((peers.filter
      (fun p => decide (HEARTBEAT_INTERVAL * 3 < now - p.2.lastHeartbeat))).map
    Prod.fst).foldl cleanupStep (peers, [])

lemma dictLookup_insert_self (k : Addr) (v : PeerRec) :
    ∀ d : Peers, dictLookup k (dictInsert k v d) = some v := by
  intro d
  induction d with
  | nil => simp [dictInsert, dictLookup]
  | cons p t ih =>
      obtain ⟨k', v'⟩ := p
      unfold dictInsert
      by_cases h : k' = k
      · rw [if_pos h]
        unfold dictLookup
        rw [if_pos rfl]
      · rw [if_neg h]
        unfold dictLookup
        rw [if_neg h]
        exact ih

lemma dictInsert_of_lookup_none (k : Addr) (v : PeerRec) :
    ∀ d : Peers, dictLookup k d = none → dictInsert k v d = d ++ [(k, v)] := by
  intro d
  induction d with
  | nil => intro _; rfl
  | cons p t ih =>
      obtain ⟨k', v'⟩ := p
      intro h
      unfold dictLookup at h
      by_cases hk : k' = k
      · rw [if_pos hk] at h; simp at h
      · rw [if_neg hk] at h
        unfold dictInsert
        rw [if_neg hk, ih h]
        rfl

lemma receiveFromPeerRun_id (peers : Peers) (msgs : List String) :
    receiveFromPeerRun peers msgs = peers := by
  induction msgs with
  | nil => rfl
  | cons m t ih => exact ih

lemma dictLookup_none_forall (k : Addr) :
    ∀ d : Peers, dictLookup k d = none → ∀ p ∈ d, p.1 ≠ k := by
  intro d
  induction d with
  | nil => intro _ p hp; exact absurd hp (List.not_mem_nil p)
  | cons q t ih =>
      obtain ⟨k', v'⟩ := q
      intro h p hp
      unfold dictLookup at h
      by_cases hk : k' = k
      · rw [if_pos hk] at h; simp at h
      · rw [if_neg hk] at h
        rcases List.mem_cons.mp hp with hq | hq
        · rw [hq]; exact hk
        · exact ih h p hq

lemma dictDelete_lookup_self (k : Addr) :
    ∀ d : Peers, dictLookup k (dictDelete k d) = none := by
  intro d
  induction d with
  | nil => rfl
  | cons p t ih =>
      obtain ⟨k', v'⟩ := p
      unfold dictDelete at ih ⊢
      by_cases hk : k' = k
      · rw [List.filter_cons_of_neg (by simp [hk])]
        exact ih
      · rw [List.filter_cons_of_pos (by simp [hk])]
        unfold dictLookup
        rw [if_neg hk]
        exact ih

lemma dictDelete_lookup_other (k b : Addr) (hbk : b ≠ k) :
    ∀ d : Peers, dictLookup k (dictDelete b d) = dictLookup k d := by
  intro d
  induction d with
  | nil => rfl
  | cons p t ih =>
      obtain ⟨k', v'⟩ := p
      by_cases hk : k' = b
      · have hR : dictLookup k ((k', v') :: t) = dictLookup k t := by
          simp only [dictLookup]
          rw [if_neg (by rw [hk]; exact hbk)]
        rw [hR]
        unfold dictDelete
        rw [List.filter_cons_of_neg (by simp [hk])]
        exact ih
      · unfold dictDelete at ih ⊢
        rw [List.filter_cons_of_pos (by simp [hk])]
        unfold dictLookup
        by_cases hkk : k' = k
        · rw [if_pos hkk, if_pos hkk]
        · rw [if_neg hkk, if_neg hkk]
          exact ih

lemma cleanupStep_eq_some (st : Peers × List Nat) (a : Addr) (r : PeerRec)
    (h : dictLookup a st.1 = some r) :
    cleanupStep st a = (dictDelete a st.1, st.2 ++ [r.sock]) := by
  unfold cleanupStep
  rw [h]

lemma cleanupStep_eq_none (st : Peers × List Nat) (a : Addr)
    (h : dictLookup a st.1 = none) : cleanupStep st a = st := by
  unfold cleanupStep
  rw [h]

lemma cleanupFold_lookup_none_preserved (a : Addr) :
    ∀ (marked : List Addr) (d : Peers) (cl : List Nat),
      dictLookup a d = none →
      dictLookup a (marked.foldl cleanupStep (d, cl)).1 = none := by
  intro marked
  induction marked with
  | nil => intro d cl h; exact h
  | cons b rest ih =>
      intro d cl h
      rw [List.foldl_cons]
      cases hb : dictLookup b d with
      | none =>
          rw [cleanupStep_eq_none (d, cl) b hb]
          exact ih d cl h
      | some r =>
          rw [cleanupStep_eq_some (d, cl) b r hb]
          refine ih _ _ ?_
          by_cases hba : b = a
          · rw [hba]; exact dictDelete_lookup_self a d
          · rw [dictDelete_lookup_other a b hba d]
            exact h

lemma cleanupFold_removes (a : Addr) :
    ∀ (marked : List Addr) (d : Peers) (cl : List Nat), a ∈ marked →
      dictLookup a (marked.foldl cleanupStep (d, cl)).1 = none := by
  intro marked
  induction marked with
  | nil => intro d cl h; exact absurd h (List.not_mem_nil a)
  | cons b rest ih =>
      intro d cl hmem
      rw [List.foldl_cons]
      by_cases hab : b = a
      · subst hab
        cases hb : dictLookup b d with
        | none =>
            rw [cleanupStep_eq_none (d, cl) b hb]
            exact cleanupFold_lookup_none_preserved b rest d cl hb
        | some r =>
            rw [cleanupStep_eq_some (d, cl) b r hb]
            exact cleanupFold_lookup_none_preserved b rest (dictDelete b d)
              (cl ++ [r.sock]) (dictDelete_lookup_self b d)
      · have ha : a ∈ rest := by
          rcases List.mem_cons.mp hmem with h | h
          · exact absurd h.symm hab
          · exact h
        cases hb : dictLookup b d with
        | none =>
            rw [cleanupStep_eq_none (d, cl) b hb]
            exact ih d cl ha
        | some r =>
            rw [cleanupStep_eq_some (d, cl) b r hb]
            exact ih (dictDelete b d) (cl ++ [r.sock]) ha

lemma cleanupFold_closed_mono (x : Nat) :
    ∀ (marked : List Addr) (d : Peers) (cl : List Nat), x ∈ cl →
      x ∈ (marked.foldl cleanupStep (d, cl)).2 := by
  intro marked
  induction marked with
  | nil => intro d cl h; exact h
  | cons b rest ih =>
      intro d cl h
      rw [List.foldl_cons]
      cases hb : dictLookup b d with
      | none =>
          rw [cleanupStep_eq_none (d, cl) b hb]
          exact ih d cl h
      | some r =>
          rw [cleanupStep_eq_some (d, cl) b r hb]
          exact ih (dictDelete b d) (cl ++ [r.sock]) (List.mem_append_left _ h)

lemma cleanupFold_lookup_untouched (a : Addr) :
    ∀ (marked : List Addr) (d : Peers) (cl : List Nat),
      (∀ b ∈ marked, b ≠ a) →
      dictLookup a (marked.foldl cleanupStep (d, cl)).1 = dictLookup a d := by
  intro marked
  induction marked with
  | nil => intro d cl _; rfl
  | cons b rest ih =>
      intro d cl hne
      rw [List.foldl_cons]
      cases hb : dictLookup b d with
      | none =>
          rw [cleanupStep_eq_none (d, cl) b hb]
          exact ih d cl (fun b' hb' => hne b' (List.mem_cons_of_mem b hb'))
      | some r =>
          rw [cleanupStep_eq_some (d, cl) b r hb]
          rw [ih (dictDelete b d) (cl ++ [r.sock])
            (fun b' hb' => hne b' (List.mem_cons_of_mem b hb'))]
          exact dictDelete_lookup_other a b (hne b (List.mem_cons_self b rest)) d

/-- C10: the last_heartbeat of an outbound connection made by
connect_to_peer is set once at insertion and never refreshed — the
outbound receive loop leaves the registry untouched no matter how many
messages arrive — so once 3 × HEARTBEAT_INTERVAL (90 s) have passed since
connecting, cleanup_disconnected_peers closes the socket and removes the
entry regardless of the traffic carried. -/
theorem C10_outbound_heartbeat_never_refreshed (host : String) (port sock : Nat)
    (peers : Peers) (t0 now : ℚ) (msgs : List String)
    (h0 : dictLookup (host, port) peers = none)
    (h1 : HEARTBEAT_INTERVAL * 3 < now - t0) :
    receiveFromPeerRun (connectInsert host port sock t0 peers) msgs
        = connectInsert host port sock t0 peers
    ∧ dictLookup (host, port)
        (receiveFromPeerRun (connectInsert host port sock t0 peers) msgs)
        = some ⟨sock, "Peer_" ++ toString port, t0⟩
    ∧ dictLookup (host, port)
        (cleanupDisconnectedPeers now
          (receiveFromPeerRun (connectInsert host port sock t0 peers) msgs)).1
        = none
    ∧ sock ∈ (cleanupDisconnectedPeers now
          (receiveFromPeerRun (connectInsert host port sock t0 peers) msgs)).2 := by
  have hrun := receiveFromPeerRun_id (connectInsert host port sock t0 peers) msgs
  have hp2 : connectInsert host port sock t0 peers
      = peers ++ [((host, port), ⟨sock, "Peer_" ++ toString port, t0⟩)] :=
    dictInsert_of_lookup_none (host, port) _ peers h0
  have hlook : dictLookup (host, port) (connectInsert host port sock t0 peers)
      = some ⟨sock, "Peer_" ++ toString port, t0⟩ :=
    dictLookup_insert_self (host, port) _ peers
  have hlook2 : dictLookup (host, port)
      (peers ++ [((host, port), ⟨sock, "Peer_" ++ toString port, t0⟩)])
      = some ⟨sock, "Peer_" ++ toString port, t0⟩ := by
    rw [← hp2]; exact hlook
  have hone : List.filter
      (fun p => decide (HEARTBEAT_INTERVAL * 3 < now - p.2.lastHeartbeat))
      [((host, port), (⟨sock, "Peer_" ++ toString port, t0⟩ : PeerRec))]
      = [((host, port), ⟨sock, "Peer_" ++ toString port, t0⟩)] := by
    simp only [List.filter_cons, List.filter_nil]
    dsimp only
    rw [if_pos (decide_eq_true h1)]
  have hfront : ∀ b ∈ (List.filter
      (fun p => decide (HEARTBEAT_INTERVAL * 3 < now - p.2.lastHeartbeat)) peers).map
      Prod.fst, b ≠ (host, port) := by
    intro b hb
    rcases List.mem_map.mp hb with ⟨p, hp, hpe⟩
    rw [← hpe]
    exact dictLookup_none_forall (host, port) peers h0 p (List.mem_of_mem_filter hp)
  have hmid := cleanupFold_lookup_untouched (host, port)
    ((List.filter
      (fun p => decide (HEARTBEAT_INTERVAL * 3 < now - p.2.lastHeartbeat)) peers).map
      Prod.fst)
    (peers ++ [((host, port), ⟨sock, "Peer_" ++ toString port, t0⟩)]) [] hfront
  rw [hlook2] at hmid
  refine ⟨hrun, by rw [hrun]; exact hlook, ?_, ?_⟩
  · rw [hrun]
    unfold cleanupDisconnectedPeers
    rw [hp2, List.filter_append, List.map_append, hone, List.foldl_append]
    simp only [List.map_cons, List.map_nil, List.foldl_cons, List.foldl_nil]
    rw [cleanupStep_eq_some _ _ _ hmid]
    exact dictDelete_lookup_self (host, port) _
  · rw [hrun]
    unfold cleanupDisconnectedPeers
    rw [hp2, List.filter_append, List.map_append, hone, List.foldl_append]
    simp only [List.map_cons, List.map_nil, List.foldl_cons, List.foldl_nil]
    rw [cleanupStep_eq_some _ _ _ hmid]
    exact List.mem_append_right _ (List.mem_singleton.mpr rfl)

/-- Rat arithmetic fact used by the C10 witness. -/
lemma rat_outbound_timeout : HEARTBEAT_INTERVAL * 3 < (91 : ℚ) - 0 := by
  norm_num [HEARTBEAT_INTERVAL]

/-- Witness for C10 at a concrete outbound connection that carried one
message and is evicted 91 s after connecting. -/
theorem C10_outbound_heartbeat_witness :
    dictLookup ("10.0.0.5", 9001)
        (cleanupDisconnectedPeers 91
          (receiveFromPeerRun (connectInsert "10.0.0.5" 9001 7 0 []) ["hi"])).1
        = none
    ∧ 7 ∈ (cleanupDisconnectedPeers 91
          (receiveFromPeerRun (connectInsert "10.0.0.5" 9001 7 0 []) ["hi"])).2 :=
  ⟨(C10_outbound_heartbeat_never_refreshed "10.0.0.5" 9001 7 [] 0 91 ["hi"]
      rfl rat_outbound_timeout).2.2.1,
   (C10_outbound_heartbeat_never_refreshed "10.0.0.5" 9001 7 [] 0 91 ["hi"]
      rfl rat_outbound_timeout).2.2.2⟩

/-- C4 counterexample: the peer program has a second insertion path into the
same shared connected_peers dict — the outbound connect_to_peer
(peer2peer.py line 284) — and it performs no capacity check at all:
dialling a fresh address while the dict already holds MAX_PEERS = 50
entries grows it to 51, so the peer registry does exceed its bound and the
claim that insertion always checks the size against the bound is false. -/
theorem C4_counterexample_outbound_insert_unchecked :
    (List.replicate 50 ((("p", 1) : Addr), (⟨7, "c", 0⟩ : PeerRec))).length
        = MAX_PEERS
    ∧ (connectInsert "h" 2 9 0
        (List.replicate 50 (("p", 1), ⟨7, "c", 0⟩))).length = 51
    ∧ MAX_PEERS
        < (connectInsert "h" 2 9 0
            (List.replicate 50 (("p", 1), ⟨7, "c", 0⟩))).length := by
  have hlook : dictLookup ("h", 2)
      (List.replicate 50 ((("p", 1) : Addr), (⟨7, "c", 0⟩ : PeerRec))) = none := by
    decide
  have hgrow : (connectInsert "h" 2 9 0
      (List.replicate 50 (("p", 1), ⟨7, "c", 0⟩))).length = 51 := by
    unfold connectInsert
    rw [dictInsert_of_lookup_none _ _ _ hlook]
    simp
  exact ⟨by decide, hgrow, by rw [hgrow]; decide⟩

/-- C4 (amended): the server's only insertion (handle_client) and the
peer's incoming insertion (handle_incoming_peer) check the size bound
atomically under the lock (MAX_CLIENTS = 100 and MAX_PEERS = 50), send an
explicit ERROR frame to a connection arriving at a full registry, close it
and never insert it — so the /list output is that of the unchanged
registry — and these insertions never grow the registry beyond the bound;
but the peer's outbound connect_to_peer inserts into the same shared dict
with no capacity check, unconditionally growing it by one entry, so the
peer registry can exceed MAX_PEERS. -/
theorem C4_amended_capacity_bound (clients : List Client) (sock : Nat)
    (addr : String × Nat) (uname : String) (p2pPort : Nat) (now : ℚ)
    (peers : Peers) (paddr : Addr) (psock : Nat) (puname : String) (pnow : ℚ)
    (chost : String) (cport csock : Nat) (ct0 : ℚ) (cpeers : Peers) :
    (MAX_CLIENTS ≤ clients.length →
      serverTryInsert clients sock addr uname p2pPort now
        = ⟨clients, [(sock, "ERROR: Server je plný")], some sock, false⟩)
    ∧ (clients.length < MAX_CLIENTS →
      serverTryInsert clients sock addr uname p2pPort now
        = ⟨clients ++ [⟨sock, addr, uname, p2pPort, now, now, 0,
            getUserColor clients.length⟩], [], none, true⟩)
    ∧ (clients.length ≤ MAX_CLIENTS →
        (serverTryInsert clients sock addr uname p2pPort now).registry.length
          ≤ MAX_CLIENTS)
    ∧ (MAX_CLIENTS ≤ clients.length →
        listUsers (serverTryInsert clients sock addr uname p2pPort now).registry
          = listUsers clients)
    ∧ (MAX_PEERS ≤ peers.length →
      peerTryInsert peers paddr psock puname pnow
        = ⟨peers, [(psock, "ERROR: Maximální počet peerů dosažen")], some psock, false⟩)
    ∧ (peers.length < MAX_PEERS →
      peerTryInsert peers paddr psock puname pnow
        = ⟨dictInsert paddr ⟨psock, puname, pnow⟩ peers, [], none, true⟩)
    ∧ (peers.length ≤ MAX_PEERS →
        (peerTryInsert peers paddr psock puname pnow).peers.length ≤ MAX_PEERS)
    ∧ (dictLookup (chost, cport) cpeers = none →
        (connectInsert chost cport csock ct0 cpeers).length
          = cpeers.length + 1) := by
  refine ⟨?_, ?_, ?_, ?_, ?_, ?_, ?_, ?_⟩
  · intro h
    unfold serverTryInsert
    rw [if_pos h]
  · intro h
    unfold serverTryInsert
    rw [if_neg (not_le.mpr h)]
  · intro h
    unfold serverTryInsert
    by_cases hf : MAX_CLIENTS ≤ clients.length
    · rw [if_pos hf]; exact h
    · rw [if_neg hf]
      simp only [List.length_append, List.length_cons, List.length_nil]
      omega
  · intro h
    unfold serverTryInsert
    rw [if_pos h]
  · intro h
    unfold peerTryInsert
    rw [if_pos h]
  · intro h
    unfold peerTryInsert
    rw [if_neg (not_le.mpr h)]
  · intro h
    unfold peerTryInsert
    by_cases hf : MAX_PEERS ≤ peers.length
    · rw [if_pos hf]; exact h
    · rw [if_neg hf]
      have := dictInsert_length paddr ⟨psock, puname, pnow⟩ peers
      dsimp only
      omega
  · intro h
    unfold connectInsert
    rw [dictInsert_of_lookup_none _ _ cpeers h]
    simp

/-- Witness for C4 (amended) at a full 100-client registry, a full 50-peer
dict, empty registries that accept the connection, and an outbound insert
into an empty dict. -/
theorem C4_amended_capacity_bound_witness :
    serverTryInsert (List.replicate 100 ⟨1, ("h", 2), "a", 8081, 0, 0, 0, "31"⟩)
        5 ("i", 9) "b" 8081 0
      = ⟨List.replicate 100 ⟨1, ("h", 2), "a", 8081, 0, 0, 0, "31"⟩,
          [(5, "ERROR: Server je plný")], some 5, false⟩
    ∧ listUsers (serverTryInsert
          (List.replicate 100 ⟨1, ("h", 2), "a", 8081, 0, 0, 0, "31"⟩)
          5 ("i", 9) "b" 8081 0).registry
        = listUsers (List.replicate 100 ⟨1, ("h", 2), "a", 8081, 0, 0, 0, "31"⟩)
    ∧ serverTryInsert [] 5 ("i", 9) "b" 8081 0
        = ⟨[⟨5, ("i", 9), "b", 8081, 0, 0, 0, getUserColor 0⟩], [], none, true⟩
    ∧ peerTryInsert [] ("p", 1) 7 "c" 0
        = ⟨[(("p", 1), ⟨7, "c", 0⟩)], [], none, true⟩
    ∧ (peerTryInsert (List.replicate 50 (("p", 1), ⟨7, "c", 0⟩)) ("q", 2) 8 "d" 0).peers.length
        ≤ MAX_PEERS
    ∧ (connectInsert "h" 2 9 0 []).length = ([] : Peers).length + 1 :=
  ⟨(C4_amended_capacity_bound (List.replicate 100 ⟨1, ("h", 2), "a", 8081, 0, 0, 0, "31"⟩)
      5 ("i", 9) "b" 8081 0 [] ("p", 1) 7 "c" 0 "h" 2 9 0 []).1 (by simp [MAX_CLIENTS]),
   (C4_amended_capacity_bound (List.replicate 100 ⟨1, ("h", 2), "a", 8081, 0, 0, 0, "31"⟩)
      5 ("i", 9) "b" 8081 0 [] ("p", 1) 7 "c" 0 "h" 2 9 0 []).2.2.2.1 (by simp [MAX_CLIENTS]),
   (C4_amended_capacity_bound [] 5 ("i", 9) "b" 8081 0 [] ("p", 1) 7 "c" 0
      "h" 2 9 0 []).2.1 (by decide),
   (C4_amended_capacity_bound [] 5 ("i", 9) "b" 8081 0 [] ("p", 1) 7 "c" 0
      "h" 2 9 0 []).2.2.2.2.2.1 (by decide),
   (C4_amended_capacity_bound [] 5 ("i", 9) "b" 8081 0
      (List.replicate 50 (("p", 1), ⟨7, "c", 0⟩)) ("q", 2) 8 "d" 0
      "h" 2 9 0 []).2.2.2.2.2.2.1 (by simp [MAX_PEERS]),
   (C4_amended_capacity_bound [] 5 ("i", 9) "b" 8081 0 [] ("p", 1) 7 "c" 0
      "h" 2 9 0 []).2.2.2.2.2.2.2 rfl⟩

end ChatServer
